import Mathlib

/-!
Shallow embedding of the three bare-metal RISC-V smoke-test programs
(`gpio_test.c`, `gpio_ctrl_test.c`, `timer_test2.c`) and proofs of the
specification claims about them.

Each program is modelled as the trace of memory-mapped I/O events it
performs.  Reads from hardware registers are parameterised by the value
the hardware returns (an oracle), since the peripheral model is external
to the programs.
-/

/-- A memory-mapped I/O event: a register write, a register read
(recording the value the hardware returned), the compiler memory
barrier (`asm volatile ("" ::: "memory")`), or the simulation-ending
trap (`asm volatile ("ecall")`). -/
inductive Event where
  | write (addr : Nat) (val : Nat)
  | read (addr : Nat) (val : Nat)
  | barrier
  | ecall
deriving DecidableEq, Repr

/-- Macro `#define IO_BASE 0x00400000` in gpio_test.c. -/
def IO_BASE : Nat := 0x00400000

/-- Macro `#define UART_ADDR (IO_BASE + 0x04)` in gpio_test.c. -/
def UART_ADDR : Nat := IO_BASE + 0x04

/-- Macro `#define GPIO_ADDR (IO_BASE + 0x20)` in gpio_test.c. -/
def GPIO_ADDR : Nat := IO_BASE + 0x20

/-- Function `uart_putc(c)`: a single volatile write of the character code to the
UART data register. -/
def uart_putc (c : Char) : Event := Event.write UART_ADDR c.toNat

/-- The lookup table `const char hex[] = "0123456789ABCDEF"` in
`print_hex`. -/
def hexTable : List Char := "0123456789ABCDEF".toList

/-- Function `print_hex(v)` from gpio_test.c: for `i = 7` down to `0` emit
`hex[(v >> (i * 4)) & 0xF]`.  Modelled as the list of characters
emitted, in emission order. -/
def print_hex (v : Nat) : List Char :=
  (List.range 8).reverse.map (fun i => hexTable.getD ((v >>> (i * 4)) &&& 0xF) 'X')

/-- Function `print_string(s)` from gpio_test.c: `while (*s) uart_putc(*s++);`.
The memory starting at the pointer is modelled as a list of characters;
the characters emitted are those before the first NUL. -/
def print_string (s : List Char) : List Char :=
  s.takeWhile (fun c => c ≠ Char.ofNat 0)

/-- The character codes written to the UART data register in a trace,
in order: the externally observable output stream. -/
def uartOutput (tr : List Event) : List Nat :=
  tr.filterMap (fun e =>
    match e with
    | Event.write a v => if a = UART_ADDR then some v else none
    | _ => none)

/-- Helper: every in-range lookup in the hex digit table yields a
character of the table. -/
theorem hexTable_getD_mem (n : Nat) (h : n < 16) : hexTable.getD n 'X' ∈ hexTable := by
  interval_cases n <;> decide

/-- Helper: masking with `0xF` always produces a value below 16. -/
theorem and_fifteen_lt (x : Nat) : x &&& 0xF < 16 :=
  Nat.lt_succ_of_le Nat.and_le_right

/-- C1: `print_hex` emits exactly 8 characters, each an uppercase hex
digit, most-significant nibble first (the character at position `j`
encodes nibble `7 - j`), and at the extreme inputs it emits
`"00000000"` and `"FFFFFFFF"`. -/
theorem print_hex_spec (v : Nat) :
    (print_hex v).length = 8 ∧
    (∀ c ∈ print_hex v, c ∈ hexTable) ∧
    (∀ j, j < 8 →
      (print_hex v).getD j 'X' = hexTable.getD ((v >>> ((7 - j) * 4)) &&& 0xF) 'X') ∧
    print_hex 0x00000000 = "00000000".toList ∧
    print_hex 0xFFFFFFFF = "FFFFFFFF".toList := by
  refine ⟨rfl, ?_, ?_, by decide, by decide⟩
  · intro c hc
    simp only [print_hex, List.mem_map] at hc
    obtain ⟨i, _, rfl⟩ := hc
    exact hexTable_getD_mem _ (and_fifteen_lt _)
  · intro j hj
    interval_cases j <;> rfl

/-- C9: for every input and every loop index, the lookup index
`(v >> (i * 4)) & 0xF` computed by `print_hex` is below the length of
the 16-entry digit table, so the table access is always in bounds. -/
theorem print_hex_index_in_bounds (v i : Nat) :
    (v >>> (i * 4)) &&& 0xF < hexTable.length :=
  Nat.lt_of_lt_of_le (and_fifteen_lt _) (by decide)

/-- C2: `print_string` emits the characters before the NUL terminator,
in order and nothing else: on memory `s ++ NUL ++ rest` with no NUL in
`s` it emits exactly `s`, and on memory beginning with NUL (the empty
string) it emits nothing. -/
theorem print_string_spec (s rest : List Char) (h : Char.ofNat 0 ∉ s) :
    print_string (s ++ Char.ofNat 0 :: rest) = s ∧
    print_string (Char.ofNat 0 :: rest) = [] := by
  constructor
  · induction s with
    | nil => simp [print_string]
    | cons c cs ih =>
      have hc : c ≠ Char.ofNat 0 := fun hc => h (hc ▸ List.mem_cons_self c cs)
      have hcs : Char.ofNat 0 ∉ cs := fun hm => h (List.mem_cons_of_mem c hm)
      have := ih hcs
      simp only [print_string, ne_eq, decide_not] at this ⊢
      simp [hc, this]
  · simp [print_string]

/-- C2 witness: `print_string` at the concrete memory image
`['H', 'i', NUL]` emits `"Hi"`, and emits nothing from NUL-first memory. -/
theorem print_string_spec_witness :
    (Char.ofNat 0 ∉ ['H', 'i']) ∧
    (print_string (['H', 'i'] ++ Char.ofNat 0 :: []) = ['H', 'i'] ∧
     print_string (Char.ofNat 0 :: []) = []) :=
  ⟨by decide, print_string_spec ['H', 'i'] [] (by decide)⟩

/-! ## TASK2: GPIO readback test (`gpio_test.c`) -/

/-- Function `main` of gpio_test.c, as the trace of I/O events it performs, in
program order.  The single GPIO read is parameterised by the value
`readVal` the hardware returns. -/
def gpio_test_main (readVal : Nat) : List Event :=
  [Event.write GPIO_ADDR 0xA5, Event.barrier, Event.read GPIO_ADDR readVal]
  ++ (print_string ("GPIO readback = ".toList)).map uart_putc
  ++ (print_hex readVal).map uart_putc
  ++ (print_string ("\n".toList)).map uart_putc
  ++ [Event.ecall]

/-- C3: the readback test performs, in order, the 0xA5 write to the
combined GPIO register, a barrier, one read of that register, the UART
emission of the label, the 8-digit hex value and a newline, then the
trap; and under the idealized read-back model (`readVal = 0xA5`) the
UART stream spells `"GPIO readback = 000000A5\n"`. -/
theorem gpio_test_main_spec :
    (∀ readVal,
      gpio_test_main readVal =
        [Event.write GPIO_ADDR 0xA5, Event.barrier, Event.read GPIO_ADDR readVal]
        ++ ("GPIO readback = ".toList.map uart_putc)
        ++ ((print_hex readVal).map uart_putc)
        ++ ['\n'].map uart_putc
        ++ [Event.ecall]) ∧
    print_hex 0xA5 = "000000A5".toList ∧
    uartOutput (gpio_test_main 0xA5) = "GPIO readback = 000000A5\n".toList.map Char.toNat := by
  refine ⟨fun readVal => ?_, by decide, by decide⟩
  rfl

/-! ## TASK3: GPIO direction/write/read test (`gpio_ctrl_test.c`) -/

/-- Macro `#define GPIO_BASE 0x00400020` in gpio_ctrl_test.c. -/
def GPIO_BASE : Nat := 0x00400020

/-- Register `GPIO_DATA` address (`GPIO_BASE + 0x00`). -/
def GPIO_DATA_ADDR : Nat := GPIO_BASE + 0x00

/-- Register `GPIO_DIR` address (`GPIO_BASE + 0x04`). -/
def GPIO_DIR_ADDR : Nat := GPIO_BASE + 0x04

/-- Register `GPIO_READ` address (`GPIO_BASE + 0x08`). -/
def GPIO_READ_ADDR : Nat := GPIO_BASE + 0x08

/-- The delay loop `for (volatile int i = 0; i < 1000; i++);` of
gpio_ctrl_test.c: starting from counter value `i`, spin until the
guard `i < 1000` fails and return the final counter value. -/
def delay_loop (i : Nat) : Nat :=
  if i < 1000 then delay_loop (i + 1) else i
termination_by 1000 - i
decreasing_by omega

/-- The delay loop touches only its `volatile int` local counter: it
performs no memory-mapped register access, hence contributes no events. -/
def delay_events : List Event := []

/-- Helper: from any start at most 1000, the delay loop leaves the
counter at exactly 1000. -/
theorem delay_loop_eq_of_le : ∀ k i, 1000 - i ≤ k → i ≤ 1000 → delay_loop i = 1000 := by
  intro k
  induction k with
  | zero =>
    intro i hk hi
    rw [delay_loop]
    have hni : ¬ i < 1000 := by omega
    simp only [hni, if_false]
    omega
  | succ n ih =>
    intro i hk hi
    rw [delay_loop]
    by_cases hlt : i < 1000
    · simp only [hlt, if_true]
      exact ih (i + 1) (by omega) (by omega)
    · simp only [hlt, if_false]
      omega

/-- Function `main` of gpio_ctrl_test.c, as the trace of I/O events it performs,
in program order: direction write, data write, the event-free delay
loop, the single `GPIO_READ` read (value `readVal` supplied by the
hardware), the UART output, the trap. -/
def gpio_ctrl_test_main (readVal : Nat) : List Event :=
  [Event.write GPIO_DIR_ADDR 0x0000001F, Event.write GPIO_DATA_ADDR 0x0000000A]
  ++ delay_events
  ++ [Event.read GPIO_READ_ADDR readVal]
  ++ (print_string ("GPIO READ = ".toList)).map uart_putc
  ++ (print_hex readVal).map uart_putc
  ++ (print_string ("\n".toList)).map uart_putc
  ++ [Event.ecall]

/-- C4: for every hardware-supplied read value the direction test
performs, in order, the 0x1F direction write, the 0xA data write, the
busy-wait (counter spun from 0 to exactly 1000, contributing no
events), one read of the dedicated read register, the UART emission of
the label, the 8-digit hex value and a newline, then the trap; the
trace is defined for every read value, asserting nothing about it. -/
theorem gpio_ctrl_test_main_spec :
    (∀ readVal,
      gpio_ctrl_test_main readVal =
        [Event.write GPIO_DIR_ADDR 0x0000001F, Event.write GPIO_DATA_ADDR 0x0000000A]
        ++ delay_events
        ++ [Event.read GPIO_READ_ADDR readVal]
        ++ ("GPIO READ = ".toList.map uart_putc)
        ++ ((print_hex readVal).map uart_putc)
        ++ ['\n'].map uart_putc
        ++ [Event.ecall]) ∧
    delay_loop 0 = 1000 ∧
    delay_events = [] := by
  exact ⟨fun readVal => rfl, delay_loop_eq_of_le 1000 0 (by omega) (by omega), rfl⟩

/-! ## Register address layout (all three tests) -/

/-- Macro `#define TIMER_BASE 0x00400040` in timer_test2.c. -/
def TIMER_BASE : Nat := 0x00400040

/-- Register `TIMER_CTRL` address (`TIMER_BASE + 0x00`). -/
def TIMER_CTRL_ADDR : Nat := TIMER_BASE + 0x00

/-- Register `TIMER_LOAD` address (`TIMER_BASE + 0x04`). -/
def TIMER_LOAD_ADDR : Nat := TIMER_BASE + 0x04

/-- Register `TIMER_STAT` address (`TIMER_BASE + 0x0C`). -/
def TIMER_STAT_ADDR : Nat := TIMER_BASE + 0x0C

/-- C8: every register address used by the three tests lies in the
0x00400000 base region with the spec's sub-block layout: UART at
base+0x04, legacy GPIO combined register at base+0x20, the
direction/read GPIO block at base+0x20 with sub-offsets 0x00/0x04/0x08,
and the timer block at base+0x40 with sub-offsets 0x00/0x04/0x0C. -/
theorem register_layout_spec :
    IO_BASE = 0x00400000 ∧
    UART_ADDR = 0x00400000 + 0x04 ∧
    GPIO_ADDR = 0x00400000 + 0x20 ∧
    GPIO_BASE = 0x00400000 + 0x20 ∧
    GPIO_DATA_ADDR = GPIO_BASE + 0x00 ∧
    GPIO_DIR_ADDR = GPIO_BASE + 0x04 ∧
    GPIO_READ_ADDR = GPIO_BASE + 0x08 ∧
    TIMER_BASE = 0x00400000 + 0x40 ∧
    TIMER_CTRL_ADDR = TIMER_BASE + 0x00 ∧
    TIMER_LOAD_ADDR = TIMER_BASE + 0x04 ∧
    TIMER_STAT_ADDR = TIMER_BASE + 0x0C := by
  repeat constructor

/-! ## TASK4: periodic timer test (`timer_test2.c`) -/

/-- The three initialization writes of timer_test2.c, in program order:
`TIMER_CTRL = 0;` (stop), `TIMER_LOAD = 12000000;`,
`TIMER_CTRL = 0x3;` (enable + periodic). -/
def timer_init_trace : List Event :=
  [Event.write TIMER_CTRL_ADDR 0,
   Event.write TIMER_LOAD_ADDR 12000000,
   Event.write TIMER_CTRL_ADDR 0x3]

/-- The guard of `while (1)` in timer_test2.c: the constant literal 1,
i.e. always true. -/
def timer_while_guard : Bool := true

/-- One iteration of the polling loop body, given the value `s` the
hardware returns for the `TIMER_STAT` read: read status, and if
`s & 0x1` is nonzero write `0x1` back to status; nothing else. -/
def timer_loop_iter (s : Nat) : List Event :=
  Event.read TIMER_STAT_ADDR s ::
    (if s &&& 0x1 ≠ 0 then [Event.write TIMER_STAT_ADDR 0x1] else [])

/-- Control state of the timer program: in the polling loop (RUNNING)
or terminated. -/
inductive TimerPhase where
  | running
  | halted
deriving DecidableEq, Repr

/-- One small step of the timer program from the loop: the `while`
guard is tested; while it holds the body runs (one iteration's events);
if it ever failed the program would leave the loop and halt. -/
def timer_step (p : TimerPhase) (s : Nat) : TimerPhase × List Event :=
  match p with
  | TimerPhase.running =>
    if timer_while_guard then (TimerPhase.running, timer_loop_iter s)
    else (TimerPhase.halted, [])
  | TimerPhase.halted => (TimerPhase.halted, [])

/-- The timer program after `n` loop iterations: phase reached and full
event trace so far.  `oracle k` is the status value the hardware
returns for the read of iteration `k`. -/
def timer_run (oracle : Nat → Nat) : Nat → TimerPhase × List Event
  | 0 => (TimerPhase.running, timer_init_trace)
  | n + 1 =>
    let st := timer_run oracle n
    let step := timer_step st.1 (oracle n)
    (step.1, st.2 ++ step.2)

/-- C5: the timer initialization is exactly three writes in order —
control cleared to 0, load set to 12000000, control set to 0x3 — and
0x3 has both the enable bit (bit 0) and the periodic-mode bit (bit 1)
set. -/
theorem timer_init_spec :
    timer_init_trace =
      [Event.write TIMER_CTRL_ADDR 0,
       Event.write TIMER_LOAD_ADDR 12000000,
       Event.write TIMER_CTRL_ADDR 0x3] ∧
    Nat.testBit 0x3 0 = true ∧ Nat.testBit 0x3 1 = true := by
  exact ⟨rfl, by decide, by decide⟩

/-- Helper: every event of a loop iteration is either a status read or
the `0x1` status write. -/
theorem timer_loop_iter_events (s : Nat) :
    ∀ e ∈ timer_loop_iter s,
      e = Event.read TIMER_STAT_ADDR s ∨ e = Event.write TIMER_STAT_ADDR 0x1 := by
  intro e he
  unfold timer_loop_iter at he
  by_cases hs : s &&& 0x1 ≠ 0
  · rw [if_pos hs] at he
    simp only [List.mem_cons, List.mem_singleton, List.not_mem_nil, or_false] at he
    exact he
  · rw [if_neg hs] at he
    simp only [List.mem_cons, List.not_mem_nil, or_false] at he
    exact Or.inl he

/-- Helper: the `while (1)` guard never fails, so after any number of
iterations the program is still in the loop. -/
theorem timer_run_running (oracle : Nat → Nat) (n : Nat) :
    (timer_run oracle n).1 = TimerPhase.running := by
  induction n with
  | zero => rfl
  | succ m ih =>
    simp only [timer_run, timer_step, ih, timer_while_guard, if_true]

/-- C6: the polling loop never terminates — after any number of
iterations the program is still RUNNING, never halted — and each
iteration's only action is the status read followed, exactly when bit 0
of the value read is set, by the single `0x1` status write: every event
the loop ever adds is one of those two, so no UART output, no other
register write and no counting occurs in the loop. -/
theorem timer_loop_spec (oracle : Nat → Nat) (n : Nat) :
    (timer_run oracle n).1 = TimerPhase.running ∧
    (timer_run oracle (n + 1)).2 =
      (timer_run oracle n).2 ++ timer_loop_iter (oracle n) ∧
    timer_loop_iter (oracle n) =
      (if (oracle n) &&& 0x1 ≠ 0
       then [Event.read TIMER_STAT_ADDR (oracle n), Event.write TIMER_STAT_ADDR 0x1]
       else [Event.read TIMER_STAT_ADDR (oracle n)]) ∧
    (∀ e ∈ (timer_run oracle n).2,
      e ∈ timer_init_trace ∨
      (∃ s, e = Event.read TIMER_STAT_ADDR s) ∨
      e = Event.write TIMER_STAT_ADDR 0x1) := by
  refine ⟨timer_run_running oracle n, ?_, ?_, ?_⟩
  · simp only [timer_run, timer_step, timer_run_running oracle n,
      timer_while_guard, if_true]
  · unfold timer_loop_iter
    by_cases hs : (oracle n) &&& 0x1 ≠ 0
    · rw [if_pos hs, if_pos hs]
    · rw [if_neg hs, if_neg hs]
  · induction n with
    | zero =>
      intro e he
      exact Or.inl he
    | succ m ih =>
      intro e he
      simp only [timer_run, timer_step, timer_run_running oracle m,
        timer_while_guard, if_true] at he
      rcases List.mem_append.mp he with hm | hm
      · exact ih e hm
      · rcases timer_loop_iter_events (oracle m) e hm with h | h
        · exact Or.inr (Or.inl ⟨oracle m, h⟩)
        · exact Or.inr (Or.inr h)

/-- Modelled from the spec: the write-1-to-clear (W1C) register update
rule of the external timer hardware (not part of this repository's
source).  Per the spec's glossary, writing a 1 to a bit clears it and
writing a 0 has no effect; registers are 32 bits wide, so the new
register value keeps exactly the old bits whose position in the written
word `w` is 0. -/
def w1c (reg w : Nat) : Nat :=
  reg &&& ((2 ^ 32 - 1) ^^^ (w &&& (2 ^ 32 - 1)))

/-- Helper: bit `i` of the W1C mask for the write value 1 is set
exactly for positions 1..31. -/
theorem w1c_mask_one_testBit (i : Nat) :
    Nat.testBit ((2 ^ 32 - 1) ^^^ (1 &&& (2 ^ 32 - 1))) i =
      (decide (i < 32) ^^ decide (i = 0)) := by
  have h1 : (1 : Nat) &&& (2 ^ 32 - 1) = 1 := by decide
  rw [h1, Nat.testBit_xor, Nat.testBit_two_pow_sub_one]
  congr 1
  have : (1 : Nat) = 2 ^ 0 := rfl
  rw [this, Nat.testBit_two_pow]
  simp [eq_comm]

/-- C7: every write the timer test ever makes to the status register —
over the whole trace, initialization included, for any hardware
behaviour and any number of iterations — carries exactly the value 0x1,
and under the W1C rule such a write clears bit 0 and leaves every other
bit of a 32-bit status register unchanged. -/
theorem timer_stat_writes_spec (oracle : Nat → Nat) (n : Nat) (reg : Nat)
    (hreg : reg < 2 ^ 32) :
    (∀ v, Event.write TIMER_STAT_ADDR v ∈ (timer_run oracle n).2 → v = 0x1) ∧
    (∀ i, Nat.testBit (w1c reg 0x1) i =
      if i = 0 then false else Nat.testBit reg i) := by
  constructor
  · intro v hv
    induction n with
    | zero =>
      simp only [timer_run, timer_init_trace, List.mem_cons, List.not_mem_nil,
        or_false] at hv
      rcases hv with h | h | h <;> cases h
    | succ m ih =>
      simp only [timer_run, timer_step, timer_run_running oracle m,
        timer_while_guard, if_true] at hv
      rcases List.mem_append.mp hv with hm | hm
      · exact ih hm
      · rcases timer_loop_iter_events (oracle m) _ hm with h | h
        · cases h
        · cases h
          rfl
  · intro i
    unfold w1c
    rw [Nat.testBit_land, w1c_mask_one_testBit]
    by_cases h0 : i = 0
    · subst h0
      simp
    · by_cases h32 : i < 32
      · simp [h0, h32]
      · have : Nat.testBit reg i = false :=
          Nat.testBit_lt_two_pow (Nat.lt_of_lt_of_le hreg
            (Nat.pow_le_pow_right (by omega) (by omega)))
        simp [h0, h32, this]

/-- C7 witness: at the concrete run (status always reads 1, two
iterations) every status write is 0x1, and W1C-clearing bit 0 of the
concrete register value 5 leaves all its other bits intact. -/
theorem timer_stat_writes_spec_witness :
    (5 : Nat) < 2 ^ 32 ∧
    ((∀ v, Event.write TIMER_STAT_ADDR v ∈ (timer_run (fun _ => 1) 2).2 → v = 0x1) ∧
     (∀ i, Nat.testBit (w1c 5 0x1) i =
       if i = 0 then false else Nat.testBit 5 i)) :=
  ⟨by decide, timer_stat_writes_spec (fun _ => 1) 2 5 (by decide)⟩

/-! ## Output determinism of the GPIO tests (noninterference) -/

/-- The readback test run against a full hardware register environment
`ρ` (address-to-value map): its single GPIO read returns `ρ GPIO_ADDR`. -/
def gpio_test_env (ρ : Nat → Nat) : List Event :=
  gpio_test_main (ρ GPIO_ADDR)

/-- The direction test run against a full hardware register environment
`ρ`: its single read of the dedicated read register returns
`ρ GPIO_READ_ADDR`. -/
def gpio_ctrl_test_env (ρ : Nat → Nat) : List Event :=
  gpio_ctrl_test_main (ρ GPIO_READ_ADDR)

/-- Helper: the UART output of a concatenated trace is the
concatenation of the outputs. -/
theorem uartOutput_append (a b : List Event) :
    uartOutput (a ++ b) = uartOutput a ++ uartOutput b := by
  simp [uartOutput, List.filterMap_append]

/-- Helper: a block of `uart_putc` events outputs exactly the character
codes of the characters emitted. -/
theorem uartOutput_map_putc (l : List Char) :
    uartOutput (l.map uart_putc) = l.map Char.toNat := by
  induction l with
  | nil => rfl
  | cons c cs ih =>
    simp only [List.map_cons, uartOutput, uart_putc, List.filterMap_cons] at ih ⊢
    simp [ih]

/-- C10: each GPIO test's UART output is a deterministic function of
the one value its GPIO read returns: the output stream is exactly the
label, the 8 hex digits of that value and a newline; and two hardware
environments agreeing on that single register produce identical UART
streams, so no other register value influences the output. -/
theorem gpio_output_deterministic (ρ₁ ρ₂ σ₁ σ₂ : Nat → Nat)
    (hρ : ρ₁ GPIO_ADDR = ρ₂ GPIO_ADDR)
    (hσ : σ₁ GPIO_READ_ADDR = σ₂ GPIO_READ_ADDR) :
    (∀ v, uartOutput (gpio_test_main v) =
      ("GPIO readback = ".toList ++ print_hex v ++ ['\n']).map Char.toNat) ∧
    (∀ v, uartOutput (gpio_ctrl_test_main v) =
      ("GPIO READ = ".toList ++ print_hex v ++ ['\n']).map Char.toNat) ∧
    uartOutput (gpio_test_env ρ₁) = uartOutput (gpio_test_env ρ₂) ∧
    uartOutput (gpio_ctrl_test_env σ₁) = uartOutput (gpio_ctrl_test_env σ₂) := by
  refine ⟨fun v => ?_, fun v => ?_, ?_, ?_⟩
  · have hlabel : print_string ("GPIO readback = ".toList) = "GPIO readback = ".toList := by
      decide
    have hnl : print_string ("\n".toList) = ['\n'] := by decide
    simp only [gpio_test_main, uartOutput_append, hlabel, hnl, uartOutput_map_putc]
    simp [uartOutput]
    decide
  · have hlabel : print_string ("GPIO READ = ".toList) = "GPIO READ = ".toList := by
      decide
    have hnl : print_string ("\n".toList) = ['\n'] := by decide
    simp only [gpio_ctrl_test_main, delay_events, uartOutput_append, hlabel, hnl,
      uartOutput_map_putc]
    simp [uartOutput]
    decide
  · unfold gpio_test_env
    rw [hρ]
  · unfold gpio_ctrl_test_env
    rw [hσ]

/-- C10 witness: at the concrete environments that map every address to
0xA5 (respectively 0x0A), the hypotheses hold definitionally and the
two runs of each test produce identical UART streams. -/
theorem gpio_output_deterministic_witness :
    ((fun _ : Nat => 0xA5) GPIO_ADDR = (fun _ : Nat => 0xA5) GPIO_ADDR) ∧
    ((fun _ : Nat => 0x0A) GPIO_READ_ADDR = (fun _ : Nat => 0x0A) GPIO_READ_ADDR) ∧
    ((∀ v, uartOutput (gpio_test_main v) =
       ("GPIO readback = ".toList ++ print_hex v ++ ['\n']).map Char.toNat) ∧
     (∀ v, uartOutput (gpio_ctrl_test_main v) =
       ("GPIO READ = ".toList ++ print_hex v ++ ['\n']).map Char.toNat) ∧
     uartOutput (gpio_test_env (fun _ => 0xA5)) =
       uartOutput (gpio_test_env (fun _ => 0xA5)) ∧
     uartOutput (gpio_ctrl_test_env (fun _ => 0x0A)) =
       uartOutput (gpio_ctrl_test_env (fun _ => 0x0A))) :=
  ⟨rfl, rfl,
    gpio_output_deterministic (fun _ => 0xA5) (fun _ => 0xA5)
      (fun _ => 0x0A) (fun _ => 0x0A) rfl rfl⟩
